import Mathlib

/-!
Shallow embedding of `src/samples/wear-a-hat/src/app.ts` (the `WearAHat`
class of the mixed-reality-extension wear-a-hat sample) and proofs of the
specification claims about it.

Modelling conventions:
* JavaScript string-keyed objects used as tables (`this.prefabs`,
  `this.attachedHats`, the `HatDatabase`) become association lists
  `List (String × v)`.  Property read is "first entry with the key",
  `delete` removes every entry with the key (a JS object cannot hold a
  duplicate key, so on states reachable from well-formed ones the two
  semantics agree), and assignment overwrites in place or appends.
* The hat catalog `HatDatabase` keeps its declaration order, matching the
  `Object.keys` iteration order of the JSON object, and is passed as an
  explicit parameter (it is a module-level constant in the source).
* External MRE SDK primitives (`Actor.Create`, `Actor.CreateFromPrefab`,
  `Quaternion.FromEulerAngles`, `DegreesToRadians`, `loadGltf`) are opaque
  collaborators per the spec; calls into them are modelled as free
  constructors recording exactly the arguments the source passes, and the
  outcome of an asynchronous load is an environment parameter.
* A thrown JavaScript `TypeError` is modelled by returning the state at the
  moment of the throw together with `some message`; a normal return carries
  `none`.
-/

namespace WearAHat

/-- Association-list lookup: the value of the first entry with key `k`,
modelling a JS object property read (`undefined`, i.e. `none`, if absent). -/
def lookupKey {v : Type} (l : List (String × v)) (k : String) : Option v :=
  (l.find? (fun p => p.1 = k)).map (fun p => p.2)

/-- Association-list delete: removes every entry with key `k`, modelling the
JS `delete obj[k]` (a JS object has at most one entry per key). -/
def eraseKey {v : Type} (l : List (String × v)) (k : String) : List (String × v) :=
  l.filter (fun p => p.1 ≠ k)

/-- Association-list assignment `obj[k] = x`: overwrite the entry in place
when the key is present (a JS object holds at most one entry per key),
append otherwise, matching JS object key-order semantics. -/
def setKey {v : Type} : List (String × v) → String → v → List (String × v)
  | [], k, x => [(k, x)]
  | p :: l, k, x => if p.1 = k then (k, x) :: l else p :: setKey l k x

/-- A 3-component vector of numbers, as in the hat database JSON
(`{x, y, z}`).  Numeric payload is modelled by `ℚ`; no branch of the
program inspects these values. -/
structure Vec3 where
  x : Rat
  y : Rat
  z : Rat
deriving DecidableEq, Repr

/-- The structure of a hat entry in the hat database (`HatDescriptor` in
`app.ts`).  A JSON entry that omits `resourceName` reads as `undefined` in
JS; both that and the empty string are falsy at the two `resourceName`
truthiness tests in the source, so absence is modelled by `""`. -/
structure HatDescriptor where
  displayName : String
  resourceName : String
  scale : Vec3
  rotation : Vec3
  position : Vec3
deriving DecidableEq, Repr

/-- The hat database: hat id to descriptor, in declaration order (which is
the `Object.keys` iteration order used by `showHatMenu` and
`preloadHats`). -/
abbrev HatDatabase : Type := List (String × HatDescriptor)

/-- An angle produced by the source expression `d * MRE.DegreesToRadians`.
`MRE.DegreesToRadians` is the external SDK constant π/180; since π is not a
program value, the radian result is represented by the degree argument `d`
(the scaling by a fixed non-zero constant is injective). -/
structure Radians where
  degrees : Rat
deriving DecidableEq, Repr

/-- The source expression `d * MRE.DegreesToRadians`. -/
def degTimesDegreesToRadians (d : Rat) : Radians := ⟨d⟩

/-- A quaternion produced by the external SDK call
`MRE.Quaternion.FromEulerAngles(x, y, z)`; modelled as a free constructor
recording the three radian arguments in order (Euler order XYZ). -/
structure Quaternion where
  eulerX : Radians
  eulerY : Radians
  eulerZ : Radians
deriving DecidableEq, Repr

/-- Model of `MRE.Quaternion.FromEulerAngles`. -/
def Quaternion.fromEulerAngles (x y z : Radians) : Quaternion := ⟨x, y, z⟩

/-- A loaded asset as returned by `loadGltf`.  `id` is the opaque asset id;
`hasPrefab` records whether the asset's `.prefab` facet is non-null (the
test `a.prefab !== null` in `preloadHats`). -/
structure Asset where
  id : Nat
  hasPrefab : Bool
deriving DecidableEq, Repr

/-- The prefab table `this.prefabs`.  The stored value is the result of
`assets.find(a => a.prefab !== null)`, which is `undefined` (`none`) when
the result set holds no prefab-bearing asset; the cast `as MRE.Prefab` has
no runtime effect. -/
abbrev PrefabTable : Type := List (String × Option Asset)

/-- The local transform passed to `Actor.CreateFromPrefab` in `wearHat`. -/
structure LocalTransform where
  position : Vec3
  rotation : Quaternion
  scale : Vec3
deriving DecidableEq, Repr

/-- The attachment descriptor passed to `Actor.CreateFromPrefab`. -/
structure AttachmentInfo where
  attachPoint : String
  userId : String
deriving DecidableEq, Repr

/-- A hat actor instantiated by `MRE.Actor.CreateFromPrefab` in `wearHat`:
the arguments of the call, plus a fresh instance id distinguishing the
created instance from every other one. -/
structure HatActor where
  instanceId : Nat
  prefabId : Nat
  transform : LocalTransform
  attachment : AttachmentInfo
deriving DecidableEq, Repr

/-- The mutable state of the `WearAHat` instance that `wearHat` and
`userLeft` touch: the prefab table, the attachment table
`this.attachedHats`, a log of every actor on which `.destroy()` has been
called, and a counter supplying fresh instance ids. -/
structure AppState where
  prefabs : PrefabTable
  attachedHats : List (String × HatActor)
  destroyed : List HatActor
  nextInstanceId : Nat
deriving DecidableEq, Repr

/-- Lines 182–184 of `app.ts`, shared verbatim by the head of `wearHat`
(and in the same shape by `userLeft`):
`if (this.attachedHats[userId]) { this.attachedHats[userId].destroy(); }`
`delete this.attachedHats[userId];`. -/
def destroyAndRemove (s : AppState) (userId : String) : AppState :=
  let s1 :=
    match lookupKey s.attachedHats userId with
    | some a => { s with destroyed := a :: s.destroyed }
    | none => s
  { s1 with attachedHats := eraseKey s1.attachedHats userId }

/-- `WearAHat.userLeft` (lines 79–84 of `app.ts`): destroy the user's hat if
present, then delete the table entry unconditionally. -/
def userLeft (s : AppState) (userId : String) : AppState :=
  destroyAndRemove s userId

/-- `WearAHat.wearHat` (lines 181–213 of `app.ts`).  Returns the state after
the call together with `some msg` when the body throws a `TypeError` (the
state is then the state at the moment of the throw):
1. destroy and remove the user's current hat, unconditionally;
2. `const hatRecord = HatDatabase[hatId]` — a missing catalog key makes the
   subsequent `hatRecord.resourceName` read throw;
3. early return when `resourceName` is falsy;
4. `this.prefabs[hatId].id` — a missing or `undefined` table value makes
   the `.id` read throw, before `CreateFromPrefab` runs;
5. otherwise instantiate the hat from the prefab and record it. -/
def wearHat (db : HatDatabase) (s : AppState) (hatId userId : String) :
    AppState × Option String :=
  let s1 := destroyAndRemove s userId
  match lookupKey db hatId with
  | none =>
      (s1, some "TypeError: Cannot read property 'resourceName' of undefined")
  | some hatRecord =>
      if hatRecord.resourceName = "" then
        (s1, none)
      else
        match lookupKey s1.prefabs hatId with
        | none =>
            (s1, some "TypeError: Cannot read property 'id' of undefined")
        | some none =>
            (s1, some "TypeError: Cannot read property 'id' of undefined")
        | some (some prefab) =>
            let actor : HatActor :=
              { instanceId := s1.nextInstanceId
                prefabId := prefab.id
                transform :=
                  { position := hatRecord.position
                    rotation := Quaternion.fromEulerAngles
                      (degTimesDegreesToRadians hatRecord.rotation.x)
                      (degTimesDegreesToRadians hatRecord.rotation.y)
                      (degTimesDegreesToRadians hatRecord.rotation.z)
                    scale := hatRecord.scale }
                attachment := { attachPoint := "head", userId := userId } }
            ({ s1 with
                attachedHats := setKey s1.attachedHats userId actor
                nextInstanceId := s1.nextInstanceId + 1 }, none)

/-- Number of entries with key `k` in an association list. -/
def countKey {v : Type} (l : List (String × v)) (k : String) : Nat :=
  (l.filter (fun p => p.1 = k)).length

/-- The outcome of one `loadGltf` request: fulfilled with a list of loaded
assets, or rejected with an error value.  Load outcomes are an environment
parameter of the model (the asset source is an external collaborator). -/
inductive LoadOutcome where
  | ok (assets : List Asset)
  | err (e : String)
deriving DecidableEq, Repr

/-- The template literal `` `${this.baseUrl}/${hatRecord.resourceName}` ``
used in `preloadHats`. -/
def loadPath (baseUrl resourceName : String) : String :=
  baseUrl ++ "/" ++ resourceName

/-- The body of the `Object.keys(HatDatabase).map(hatId => ...)` callback in
`preloadHats` (lines 161–172), acting on the accumulated state and error
log.  When `resourceName` is truthy, the settled load either assigns
`this.prefabs[hatId] = assets.find(a => a.prefab !== null)` (on success) or
logs the error (`.catch(e => log.error("app", e))`); otherwise nothing
happens (`Promise.resolve()`). -/
def preloadStep (loads : String → LoadOutcome) (baseUrl : String)
    (acc : AppState × List String) (entry : String × HatDescriptor) :
    AppState × List String :=
  let hatRecord := entry.2
  if hatRecord.resourceName ≠ "" then
    match loads (loadPath baseUrl hatRecord.resourceName) with
    | .ok assets =>
        ({ acc.1 with
            prefabs := setKey acc.1.prefabs entry.1
              (assets.find? (fun a => a.hasPrefab)) }, acc.2)
    | .err e => (acc.1, acc.2 ++ [e])
  else acc

/-- `WearAHat.preloadHats` (lines 155–174 of `app.ts`), observed after all
of its per-hat load promises have settled: folds `preloadStep` over the
catalog entries (iteration order `Object.keys`; each key is written at most
once, so the fold order is irrelevant to the per-key results, matching the
unordered settlement of the concurrent loads).  Returns the updated state
and the list of logged load errors. -/
def preloadHats (loads : String → LoadOutcome) (baseUrl : String)
    (db : HatDatabase) (s : AppState) : AppState × List String :=
  db.foldl (preloadStep loads baseUrl) (s, [])

/-- The promise built for one catalog entry by the `map` callback in
`preloadHats`: either the `loadGltf(path).then(...).catch(...)` chain (which,
thanks to the `.catch`, always fulfills, and settles exactly when the load at
`path` settles) or `Promise.resolve()`. -/
inductive HatLoadPromise where
  | loadChain (path : String)
  | resolvedNow
deriving DecidableEq, Repr

/-- Which promise the `map` callback builds for a given catalog entry. -/
def hatLoadPromiseOf (baseUrl : String) (entry : String × HatDescriptor) :
    HatLoadPromise :=
  if entry.2.resourceName ≠ "" then
    .loadChain (loadPath baseUrl entry.2.resourceName)
  else .resolvedNow

/-- The list of per-hat promises passed to `Promise.all` in `preloadHats`. -/
def preloadPromises (baseUrl : String) (db : HatDatabase) : List HatLoadPromise :=
  db.map (hatLoadPromiseOf baseUrl)

/-- Settledness of one per-hat promise, given which load paths have settled:
a load chain has settled exactly when its load has, and `Promise.resolve()`
is settled immediately.  Because every load chain carries a `.catch`, no
element promise ever rejects. -/
def HatLoadPromise.isSettled (settled : String → Bool) :
    HatLoadPromise → Bool
  | .loadChain path => settled path
  | .resolvedNow => true

/-- Settledness of the `Promise.all` returned by `preloadHats`: since no
element promise rejects, it fulfills exactly when every element promise has
settled. -/
def preloadAllSettled (settled : String → Bool) (baseUrl : String)
    (db : HatDatabase) : Bool :=
  (preloadPromises baseUrl db).all (fun p => p.isSettled settled)

/-- The two phases of `WearAHat.started` (lines 68–73 of `app.ts`):
suspended at `await this.preloadHats()`, or past it with
`this.showHatMenu()` executed. -/
inductive StartupPhase where
  | awaitingPreload
  | menuShown
deriving DecidableEq, Repr

/-- The phase `started` has reached, as a function of which loads have
settled: the `await` releases (and the menu is built) exactly when the
`Promise.all` of the per-hat promises has settled. -/
def startedPhase (settled : String → Bool) (baseUrl : String)
    (db : HatDatabase) : StartupPhase :=
  if preloadAllSettled settled baseUrl db then .menuShown else .awaitingPreload

/-- Text anchor locations used by `showHatMenu`
(`MRE.TextAnchorLocation.MiddleLeft` / `MiddleCenter`). -/
inductive TextAnchor where
  | middleLeft
  | middleCenter
deriving DecidableEq, Repr

/-- The `text` block passed to `MRE.Actor.Create` for a label. -/
structure TextParams where
  contents : String
  height : Rat
  anchor : TextAnchor
  color : Option String
deriving DecidableEq, Repr

/-- One actor created by `showHatMenu`, recording the arguments of the
corresponding `MRE.Actor.Create` call: parent, name, whether it uses the
shared button box mesh, whether it has an auto collider, the hat id its
click handler closes over (`onClick(user => this.wearHat(hatId, user.id))`),
its text block, and its local position. -/
structure MenuActor where
  parentId : Option Nat
  name : String
  usesButtonMesh : Bool
  hasAutoCollider : Bool
  onClickWearsHat : Option String
  text : Option TextParams
  position : Vec3
deriving DecidableEq, Repr

/-- The model id of the menu container actor (`menu` in `showHatMenu`),
created first. -/
def menuContainerId : Nat := 0

/-- The menu container: `MRE.Actor.Create(this.context, {})`, no
properties. -/
def menuContainer : MenuActor :=
  { parentId := none, name := "", usesButtonMesh := false,
    hasAutoCollider := false, onClickWearsHat := none, text := none,
    position := ⟨0, 0, 0⟩ }

/-- The clickable button created for catalog entry `hatId` at height `y`
(lines 100–114 of `app.ts`): parented to the menu, named after the hat,
box mesh, auto collider, positioned at `(0, y, 0)`, with a click handler
invoking `wearHat(hatId, user.id)`. -/
def buttonActor (hatId : String) (y : Rat) : MenuActor :=
  { parentId := some menuContainerId, name := hatId, usesButtonMesh := true,
    hasAutoCollider := true, onClickWearsHat := some hatId, text := none,
    position := ⟨0, y, 0⟩ }

/-- The text label created for a catalog entry (lines 117–130 of `app.ts`):
parented to the menu, named `label`, showing `displayName` at height 0.5,
anchored middle-left, positioned at `(0.5, y, 0)`. -/
def labelActor (displayName : String) (y : Rat) : MenuActor :=
  { parentId := some menuContainerId, name := "label", usesButtonMesh := false,
    hasAutoCollider := false, onClickWearsHat := none,
    text := some ⟨displayName, 0.5, .middleLeft, none⟩,
    position := ⟨0.5, y, 0⟩ }

/-- The menu title label (lines 135–149 of `app.ts`): parented to the menu,
contents `''.padStart(8, ' ') + "Wear a Hat"`, height 0.8, anchored
middle-center, yellow, positioned at `(0.5, y + 0.25, 0)` where `y` is the
loop variable's final value. -/
def titleLabelActor (y : Rat) : MenuActor :=
  { parentId := some menuContainerId, name := "label", usesButtonMesh := false,
    hasAutoCollider := false, onClickWearsHat := none,
    text := some ⟨String.mk (List.replicate 8 ' ') ++ "Wear a Hat",
      0.8, .middleCenter, some "Yellow"⟩,
    position := ⟨0.5, y + 0.25, 0⟩ }

/-- The `for (const hatId of Object.keys(HatDatabase))` loop of
`showHatMenu`, carrying the loop variable `y` (incremented by 0.5 per
entry): returns the created actors in creation order together with the
final value of `y`. -/
def menuEntryActors (db : HatDatabase) (y : Rat) : List MenuActor × Rat :=
  match db with
  | [] => ([], y)
  | entry :: rest =>
      let tail := menuEntryActors rest (y + 0.5)
      (buttonActor entry.1 y :: labelActor entry.2.displayName y :: tail.1,
       tail.2)

/-- `WearAHat.showHatMenu` (lines 89–150 of `app.ts`): the list of actors it
creates, in creation order — the container, then one button and one label
per catalog entry starting at `y = 0.3`, then the title label. -/
def showHatMenu (db : HatDatabase) : List MenuActor :=
  let loop := menuEntryActors db 0.3
  menuContainer :: loop.1 ++ [titleLabelActor loop.2]

/-- An external event concerning one fixed user: a click on the button for
`hatId` (which invokes `wearHat(hatId, userId)`) or the user-left event. -/
inductive UserEvent where
  | wear (hatId : String)
  | leave
deriving DecidableEq, Repr

/-- One event step for a fixed user.  A `TypeError` thrown by `wearHat`
propagates out of the click handler, but the state mutations made before
the throw remain. -/
def stepEvent (db : HatDatabase) (u : String) (s : AppState) :
    UserEvent → AppState
  | .wear hatId => (wearHat db s hatId u).1
  | .leave => userLeft s u

/-- The state after a finite sequence of events for a fixed user. -/
def runEvents (db : HatDatabase) (u : String) (s : AppState)
    (evs : List UserEvent) : AppState :=
  evs.foldl (stepEvent db u) s

/-- The initial state of a fresh `WearAHat` instance: empty prefab table,
empty attachment table, nothing destroyed. -/
def emptyState : AppState :=
  { prefabs := [], attachedHats := [], destroyed := [], nextInstanceId := 0 }

/-- A concrete descriptor with an asset reference, shaped like the `black-hat`
entries of `public/hats.json`. -/
def capDescriptor : HatDescriptor :=
  { displayName := "Cap", resourceName := "cap.glb",
    scale := ⟨1, 1, 1⟩, rotation := ⟨0, 90, 0⟩, position := ⟨0, 0.1, 0⟩ }

/-- A concrete "none" descriptor (no asset reference). -/
def noneDescriptor : HatDescriptor :=
  { displayName := "None", resourceName := "",
    scale := ⟨1, 1, 1⟩, rotation := ⟨0, 0, 0⟩, position := ⟨0, 0, 0⟩ }

/-- A concrete two-entry catalog. -/
def sampleDb : HatDatabase :=
  [("none", noneDescriptor), ("cap", capDescriptor)]

/-- A concrete loaded asset whose `.prefab` facet is non-null. -/
def capAsset : Asset := { id := 7, hasPrefab := true }

/-- A concrete state in which the cap prefab preloaded successfully. -/
def loadedState : AppState :=
  { emptyState with prefabs := [("cap", some capAsset)] }

/-- The hat actor `wearHat` builds from `capDescriptor` and `capAsset` when
it is the first instance ever created (`instanceId = 0`). -/
def sampleWornActor : HatActor :=
  { instanceId := 0, prefabId := 7,
    transform :=
      { position := ⟨0, 0.1, 0⟩,
        rotation := Quaternion.fromEulerAngles ⟨0⟩ ⟨90⟩ ⟨0⟩,
        scale := ⟨1, 1, 1⟩ },
    attachment := { attachPoint := "head", userId := "u1" } }

/-- A concrete state in which user `u1` wears `sampleWornActor` and the cap
prefab is loaded. -/
def wornState : AppState :=
  { prefabs := [("cap", some capAsset)],
    attachedHats := [("u1", sampleWornActor)],
    destroyed := [], nextInstanceId := 1 }

/-- The hat actor created when `u1` re-selects the cap from `wornState`
(fresh `instanceId = 1`). -/
def rewornActor : HatActor :=
  { sampleWornActor with instanceId := 1 }

/-- A concrete load environment: the cap resource fulfills with three
assets (the second is the first prefab-bearing one), every other path
rejects. -/
def sampleLoads : String → LoadOutcome := fun path =>
  if path = "http://x/cap.glb" then
    .ok [⟨3, false⟩, ⟨7, true⟩, ⟨9, true⟩]
  else .err "boom"

/-! ### Association-list lemmas -/

theorem lookupKey_nil {v : Type} (k : String) :
    lookupKey ([] : List (String × v)) k = none := rfl

theorem lookupKey_cons {v : Type} (p : String × v) (l : List (String × v))
    (k : String) :
    lookupKey (p :: l) k = if p.1 = k then some p.2 else lookupKey l k := by
  by_cases h : p.1 = k <;> simp [lookupKey, List.find?_cons, h]

theorem eraseKey_cons {v : Type} (p : String × v) (l : List (String × v))
    (k : String) :
    eraseKey (p :: l) k =
      if p.1 = k then eraseKey l k else p :: eraseKey l k := by
  by_cases h : p.1 = k <;> simp [eraseKey, List.filter_cons, h]

theorem lookupKey_eq_none_iff {v : Type} (l : List (String × v)) (k : String) :
    lookupKey l k = none ↔ ∀ p ∈ l, p.1 ≠ k := by
  simp [lookupKey, List.find?_eq_none]

theorem lookupKey_eraseKey_self {v : Type} (l : List (String × v)) (k : String) :
    lookupKey (eraseKey l k) k = none := by
  rw [lookupKey_eq_none_iff]
  intro p hp
  have := List.of_mem_filter hp
  simpa using this

theorem lookupKey_eraseKey_ne {v : Type} (l : List (String × v)) (k k' : String)
    (h : k' ≠ k) : lookupKey (eraseKey l k) k' = lookupKey l k' := by
  induction l with
  | nil => rfl
  | cons p l ih =>
      rw [eraseKey_cons]
      have hkk' : ¬ k = k' := fun hh => h hh.symm
      by_cases hp : p.1 = k
      · have hp' : ¬ p.1 = k' := by rw [hp]; exact hkk'
        simp [hp, lookupKey_cons, hp', hkk', ih]
      · by_cases hk' : p.1 = k'
        · simp [hp, lookupKey_cons, hk', h]
        · simp [hp, lookupKey_cons, hk', ih]

theorem eraseKey_of_lookupKey_none {v : Type} (l : List (String × v)) (k : String)
    (h : lookupKey l k = none) : eraseKey l k = l := by
  rw [lookupKey_eq_none_iff] at h
  exact List.filter_eq_self.mpr (fun p hp => by simpa using h p hp)

theorem lookupKey_setKey_self {v : Type} (l : List (String × v)) (k : String) (x : v) :
    lookupKey (setKey l k x) k = some x := by
  induction l with
  | nil => simp [setKey, lookupKey_cons]
  | cons p l ih =>
      by_cases hp : p.1 = k
      · simp [setKey, hp, lookupKey_cons]
      · simp [setKey, hp, lookupKey_cons, ih]

theorem lookupKey_setKey_ne {v : Type} (l : List (String × v)) (k k' : String) (x : v)
    (h : k' ≠ k) : lookupKey (setKey l k x) k' = lookupKey l k' := by
  have hkk' : ¬ k = k' := fun hh => h hh.symm
  induction l with
  | nil => simp [setKey, lookupKey_cons, lookupKey_nil, hkk']
  | cons p l ih =>
      by_cases hp : p.1 = k
      · have hp' : ¬ p.1 = k' := by rw [hp]; exact hkk'
        simp [setKey, hp, lookupKey_cons, hp', hkk']
      · by_cases hk' : p.1 = k'
        · simp [setKey, hp, lookupKey_cons, hk', h]
        · simp [setKey, hp, lookupKey_cons, hk', ih]

/-! ### Shape lemmas for `destroyAndRemove` and `wearHat` -/

theorem destroyAndRemove_prefabs (s : AppState) (u : String) :
    (destroyAndRemove s u).prefabs = s.prefabs := by
  unfold destroyAndRemove
  cases lookupKey s.attachedHats u <;> rfl

theorem destroyAndRemove_nextInstanceId (s : AppState) (u : String) :
    (destroyAndRemove s u).nextInstanceId = s.nextInstanceId := by
  unfold destroyAndRemove
  cases lookupKey s.attachedHats u <;> rfl

theorem destroyAndRemove_attachedHats (s : AppState) (u : String) :
    (destroyAndRemove s u).attachedHats = eraseKey s.attachedHats u := by
  unfold destroyAndRemove
  cases lookupKey s.attachedHats u <;> rfl

theorem destroyAndRemove_destroyed_of_some (s : AppState) (u : String)
    (a : HatActor) (h : lookupKey s.attachedHats u = some a) :
    (destroyAndRemove s u).destroyed = a :: s.destroyed := by
  unfold destroyAndRemove
  rw [h]

theorem destroyAndRemove_of_lookupKey_none (s : AppState) (u : String)
    (h : lookupKey s.attachedHats u = none) : destroyAndRemove s u = s := by
  unfold destroyAndRemove
  rw [h]
  simp [eraseKey_of_lookupKey_none s.attachedHats u h]

theorem destroyAndRemove_destroyed_sub (s : AppState) (u : String) (a : HatActor)
    (h : a ∈ s.destroyed) : a ∈ (destroyAndRemove s u).destroyed := by
  unfold destroyAndRemove
  cases lookupKey s.attachedHats u <;> simp [h]

theorem wearHat_of_db_none (db : HatDatabase) (s : AppState) (hatId u : String)
    (h : lookupKey db hatId = none) :
    wearHat db s hatId u =
      (destroyAndRemove s u,
       some "TypeError: Cannot read property 'resourceName' of undefined") := by
  unfold wearHat
  rw [h]

theorem wearHat_of_resource_empty (db : HatDatabase) (s : AppState)
    (hatId u : String) (d : HatDescriptor) (hdb : lookupKey db hatId = some d)
    (hres : d.resourceName = "") :
    wearHat db s hatId u = (destroyAndRemove s u, none) := by
  unfold wearHat
  rw [hdb]
  simp [hres]

theorem wearHat_of_prefab_unusable (db : HatDatabase) (s : AppState)
    (hatId u : String) (d : HatDescriptor) (hdb : lookupKey db hatId = some d)
    (hres : d.resourceName ≠ "")
    (hpre : (lookupKey s.prefabs hatId).getD none = none) :
    wearHat db s hatId u =
      (destroyAndRemove s u,
       some "TypeError: Cannot read property 'id' of undefined") := by
  unfold wearHat
  rw [hdb]
  simp only [hres, if_false]
  rw [destroyAndRemove_prefabs]
  cases hp : lookupKey s.prefabs hatId with
  | none => rfl
  | some o =>
      cases o with
      | none => rfl
      | some p => rw [hp] at hpre; simp at hpre

theorem wearHat_of_prefab_some (db : HatDatabase) (s : AppState)
    (hatId u : String) (d : HatDescriptor) (p : Asset)
    (hdb : lookupKey db hatId = some d) (hres : d.resourceName ≠ "")
    (hpre : lookupKey s.prefabs hatId = some (some p)) :
    wearHat db s hatId u =
      (let s1 := destroyAndRemove s u
       ({ s1 with
           attachedHats := setKey s1.attachedHats u
             { instanceId := s1.nextInstanceId
               prefabId := p.id
               transform :=
                 { position := d.position
                   rotation := Quaternion.fromEulerAngles
                     (degTimesDegreesToRadians d.rotation.x)
                     (degTimesDegreesToRadians d.rotation.y)
                     (degTimesDegreesToRadians d.rotation.z)
                   scale := d.scale }
               attachment := { attachPoint := "head", userId := u } }
           nextInstanceId := s1.nextInstanceId + 1 }, none)) := by
  unfold wearHat
  rw [hdb]
  simp only [hres, if_false]
  rw [destroyAndRemove_prefabs, hpre]

theorem wearHat_prefabs (db : HatDatabase) (s : AppState) (hatId u : String) :
    (wearHat db s hatId u).1.prefabs = s.prefabs := by
  cases hdb : lookupKey db hatId with
  | none => rw [wearHat_of_db_none db s hatId u hdb, destroyAndRemove_prefabs]
  | some d =>
      by_cases hres : d.resourceName = ""
      · rw [wearHat_of_resource_empty db s hatId u d hdb hres,
          destroyAndRemove_prefabs]
      · cases hp : lookupKey s.prefabs hatId with
        | none =>
            rw [wearHat_of_prefab_unusable db s hatId u d hdb hres (by rw [hp]; rfl),
              destroyAndRemove_prefabs]
        | some o =>
            cases o with
            | none =>
                rw [wearHat_of_prefab_unusable db s hatId u d hdb hres
                  (by rw [hp]; rfl), destroyAndRemove_prefabs]
            | some p =>
                rw [wearHat_of_prefab_some db s hatId u d p hdb hres hp]
                exact destroyAndRemove_prefabs s u

theorem wearHat_destroyed (db : HatDatabase) (s : AppState) (hatId u : String) :
    (wearHat db s hatId u).1.destroyed = (destroyAndRemove s u).destroyed := by
  cases hdb : lookupKey db hatId with
  | none => rw [wearHat_of_db_none db s hatId u hdb]
  | some d =>
      by_cases hres : d.resourceName = ""
      · rw [wearHat_of_resource_empty db s hatId u d hdb hres]
      · cases hp : lookupKey s.prefabs hatId with
        | none =>
            rw [wearHat_of_prefab_unusable db s hatId u d hdb hres (by rw [hp]; rfl)]
        | some o =>
            cases o with
            | none =>
                rw [wearHat_of_prefab_unusable db s hatId u d hdb hres (by rw [hp]; rfl)]
            | some p =>
                rw [wearHat_of_prefab_some db s hatId u d p hdb hres hp]

theorem wearHat_attachedHats_cases (db : HatDatabase) (s : AppState)
    (hatId u : String) :
    (wearHat db s hatId u).1.attachedHats = eraseKey s.attachedHats u ∨
    ∃ a, (wearHat db s hatId u).1.attachedHats =
      setKey (eraseKey s.attachedHats u) u a := by
  cases hdb : lookupKey db hatId with
  | none =>
      rw [wearHat_of_db_none db s hatId u hdb]
      exact Or.inl (destroyAndRemove_attachedHats s u)
  | some d =>
      by_cases hres : d.resourceName = ""
      · rw [wearHat_of_resource_empty db s hatId u d hdb hres]
        exact Or.inl (destroyAndRemove_attachedHats s u)
      · cases hp : lookupKey s.prefabs hatId with
        | none =>
            rw [wearHat_of_prefab_unusable db s hatId u d hdb hres (by rw [hp]; rfl)]
            exact Or.inl (destroyAndRemove_attachedHats s u)
        | some o =>
            cases o with
            | none =>
                rw [wearHat_of_prefab_unusable db s hatId u d hdb hres
                  (by rw [hp]; rfl)]
                exact Or.inl (destroyAndRemove_attachedHats s u)
            | some p =>
                rw [wearHat_of_prefab_some db s hatId u d p hdb hres hp]
                refine Or.inr ⟨{ instanceId := (destroyAndRemove s u).nextInstanceId
                                 prefabId := p.id
                                 transform :=
                                   { position := d.position
                                     rotation := Quaternion.fromEulerAngles
                                       (degTimesDegreesToRadians d.rotation.x)
                                       (degTimesDegreesToRadians d.rotation.y)
                                       (degTimesDegreesToRadians d.rotation.z)
                                     scale := d.scale }
                                 attachment := { attachPoint := "head", userId := u } },
                  ?_⟩
                rw [← destroyAndRemove_attachedHats]

/-! ### Counting lemmas for the at-most-one-hat invariant -/

theorem countKey_eraseKey_self {v : Type} (l : List (String × v)) (k : String) :
    countKey (eraseKey l k) k = 0 := by
  induction l with
  | nil => rfl
  | cons p l ih =>
      rw [eraseKey_cons]
      by_cases hp : p.1 = k
      · simpa [hp] using ih
      · simpa [countKey, List.filter_cons, hp] using ih

theorem countKey_setKey_of_absent {v : Type} (l : List (String × v)) (k : String)
    (x : v) (h : countKey l k = 0) : countKey (setKey l k x) k = 1 := by
  induction l with
  | nil => simp [setKey, countKey, List.filter_cons]
  | cons p l ih =>
      by_cases hp : p.1 = k
      · exfalso
        simp [countKey, List.filter_cons, hp] at h
      · simp only [countKey, List.filter_cons, hp, decide_eq_true_eq] at h
        simp only [setKey, hp, if_false]
        simpa [countKey, List.filter_cons, hp] using ih (by simpa [countKey] using h)

/-! ### Event-step lemmas for the per-user trace invariant -/

theorem stepEvent_countKey_le_one (db : HatDatabase) (u : String) (s : AppState)
    (e : UserEvent) : countKey (stepEvent db u s e).attachedHats u ≤ 1 := by
  cases e with
  | leave =>
      show countKey (userLeft s u).attachedHats u ≤ 1
      rw [userLeft, destroyAndRemove_attachedHats, countKey_eraseKey_self]
      exact Nat.zero_le 1
  | wear hatId =>
      show countKey (wearHat db s hatId u).1.attachedHats u ≤ 1
      rcases wearHat_attachedHats_cases db s hatId u with h | ⟨a, h⟩
      · rw [h, countKey_eraseKey_self]
        exact Nat.zero_le 1
      · rw [h, countKey_setKey_of_absent _ _ _ (countKey_eraseKey_self _ _)]

theorem stepEvent_destroyed_mono (db : HatDatabase) (u : String) (s : AppState)
    (e : UserEvent) (a : HatActor) (h : a ∈ s.destroyed) :
    a ∈ (stepEvent db u s e).destroyed := by
  cases e with
  | leave => exact destroyAndRemove_destroyed_sub s u a h
  | wear hatId =>
      show a ∈ (wearHat db s hatId u).1.destroyed
      rw [wearHat_destroyed]
      exact destroyAndRemove_destroyed_sub s u a h

theorem stepEvent_destroys_current (db : HatDatabase) (u : String) (s : AppState)
    (e : UserEvent) (a : HatActor) (h : lookupKey s.attachedHats u = some a) :
    a ∈ (stepEvent db u s e).destroyed := by
  have hmem : a ∈ (destroyAndRemove s u).destroyed := by
    rw [destroyAndRemove_destroyed_of_some s u a h]
    exact List.mem_cons_self a _
  cases e with
  | leave => exact hmem
  | wear hatId =>
      show a ∈ (wearHat db s hatId u).1.destroyed
      rw [wearHat_destroyed]
      exact hmem

theorem stepEvent_current_or_destroyed (db : HatDatabase) (u : String)
    (s : AppState) (e : UserEvent) (a : HatActor)
    (h : lookupKey s.attachedHats u = some a ∨ a ∈ s.destroyed) :
    lookupKey (stepEvent db u s e).attachedHats u = some a ∨
      a ∈ (stepEvent db u s e).destroyed := by
  rcases h with h | h
  · exact Or.inr (stepEvent_destroys_current db u s e a h)
  · exact Or.inr (stepEvent_destroyed_mono db u s e a h)

theorem runEvents_current_or_destroyed (db : HatDatabase) (u : String) :
    ∀ (evs : List UserEvent) (s : AppState) (a : HatActor),
    (lookupKey s.attachedHats u = some a ∨ a ∈ s.destroyed) →
    lookupKey (runEvents db u s evs).attachedHats u = some a ∨
      a ∈ (runEvents db u s evs).destroyed := by
  intro evs
  induction evs with
  | nil => intro s a h; exact h
  | cons e es ih =>
      intro s a h
      exact ih (stepEvent db u s e) a (stepEvent_current_or_destroyed db u s e a h)

theorem runEvents_countKey_le_one (db : HatDatabase) (u : String) :
    ∀ (evs : List UserEvent) (s : AppState),
    countKey s.attachedHats u ≤ 1 →
    countKey (runEvents db u s evs).attachedHats u ≤ 1 := by
  intro evs
  induction evs with
  | nil => intro s h; exact h
  | cons e es ih =>
      intro s _
      exact ih (stepEvent db u s e) (stepEvent_countKey_le_one db u s e)

theorem runEvents_append (db : HatDatabase) (u : String) (s : AppState)
    (evs1 evs2 : List UserEvent) :
    runEvents db u s (evs1 ++ evs2) = runEvents db u (runEvents db u s evs1) evs2 := by
  unfold runEvents
  exact List.foldl_append _ _ _ _

/-! ### Preload lemmas -/

theorem preloadStep_lookup_ne (loads : String → LoadOutcome) (baseUrl : String)
    (acc : AppState × List String) (entry : String × HatDescriptor)
    (hatId : String) (h : entry.1 ≠ hatId) :
    lookupKey (preloadStep loads baseUrl acc entry).1.prefabs hatId =
      lookupKey acc.1.prefabs hatId := by
  unfold preloadStep
  by_cases hres : entry.2.resourceName = ""
  · simp [hres]
  · simp only [ne_eq, hres, not_false_eq_true, if_true]
    cases loads (loadPath baseUrl entry.2.resourceName) with
    | ok assets =>
        simpa using lookupKey_setKey_ne acc.1.prefabs entry.1 hatId _ (Ne.symm h)
    | err e => rfl

theorem preloadStep_logs_prefix (loads : String → LoadOutcome) (baseUrl : String)
    (acc : AppState × List String) (entry : String × HatDescriptor) :
    ∃ t, (preloadStep loads baseUrl acc entry).2 = acc.2 ++ t := by
  unfold preloadStep
  by_cases hres : entry.2.resourceName = ""
  · exact ⟨[], by simp [hres]⟩
  · simp only [ne_eq, hres, not_false_eq_true, if_true]
    cases loads (loadPath baseUrl entry.2.resourceName) with
    | ok assets => exact ⟨[], by simp⟩
    | err e => exact ⟨[e], rfl⟩

theorem preload_fold_lookup_absent (loads : String → LoadOutcome) (baseUrl : String) :
    ∀ (db : HatDatabase) (acc : AppState × List String) (hatId : String),
    (∀ p ∈ db, p.1 ≠ hatId) →
    lookupKey (db.foldl (preloadStep loads baseUrl) acc).1.prefabs hatId =
      lookupKey acc.1.prefabs hatId := by
  intro db
  induction db with
  | nil => intro acc hatId _; rfl
  | cons q rest ih =>
      intro acc hatId h
      rw [List.foldl_cons,
        ih _ hatId (fun p hp => h p (List.mem_cons_of_mem q hp))]
      exact preloadStep_lookup_ne loads baseUrl acc q hatId
        (h q (List.mem_cons_self q rest))

theorem preload_fold_logs_prefix (loads : String → LoadOutcome) (baseUrl : String) :
    ∀ (db : HatDatabase) (acc : AppState × List String),
    ∃ t, (db.foldl (preloadStep loads baseUrl) acc).2 = acc.2 ++ t := by
  intro db
  induction db with
  | nil => intro acc; exact ⟨[], (List.append_nil _).symm⟩
  | cons q rest ih =>
      intro acc
      obtain ⟨t1, h1⟩ := preloadStep_logs_prefix loads baseUrl acc q
      obtain ⟨t2, h2⟩ := ih (preloadStep loads baseUrl acc q)
      exact ⟨t1 ++ t2, by rw [List.foldl_cons, h2, h1, List.append_assoc]⟩

theorem preload_fold_entry (loads : String → LoadOutcome) (baseUrl : String) :
    ∀ (db : HatDatabase) (acc : AppState × List String) (hatId : String)
      (rec : HatDescriptor),
    (hatId, rec) ∈ db → (db.map Prod.fst).Nodup →
    (rec.resourceName = "" →
      lookupKey (db.foldl (preloadStep loads baseUrl) acc).1.prefabs hatId =
        lookupKey acc.1.prefabs hatId) ∧
    (∀ assets, rec.resourceName ≠ "" →
      loads (loadPath baseUrl rec.resourceName) = .ok assets →
      lookupKey (db.foldl (preloadStep loads baseUrl) acc).1.prefabs hatId =
        some (assets.find? (fun a => a.hasPrefab))) ∧
    (∀ e, rec.resourceName ≠ "" →
      loads (loadPath baseUrl rec.resourceName) = .err e →
      lookupKey (db.foldl (preloadStep loads baseUrl) acc).1.prefabs hatId =
        lookupKey acc.1.prefabs hatId ∧
      e ∈ (db.foldl (preloadStep loads baseUrl) acc).2) := by
  intro db
  induction db with
  | nil => intro acc hatId rec hmem; exact absurd hmem (List.not_mem_nil _)
  | cons q rest ih =>
      intro acc hatId rec hmem hnd
      have hndrest : (rest.map Prod.fst).Nodup := (List.nodup_cons.mp hnd).2
      have hqrest : q.1 ∉ rest.map Prod.fst := (List.nodup_cons.mp hnd).1
      rcases List.mem_cons.mp hmem with heq | htail
      · -- the entry is the head of the catalog
        have hq1 : q.1 = hatId := by rw [← heq]
        have hq2 : q.2 = rec := by rw [← heq]
        have habsent : ∀ p ∈ rest, p.1 ≠ hatId := by
          intro p hp hcontra
          apply hqrest
          rw [hq1, ← hcontra]
          exact List.mem_map_of_mem Prod.fst hp
        refine ⟨?_, ?_, ?_⟩
        · intro hres
          rw [List.foldl_cons, preload_fold_lookup_absent loads baseUrl rest _ hatId habsent]
          unfold preloadStep
          simp [hq2, hres]
        · intro assets hres hload
          rw [List.foldl_cons, preload_fold_lookup_absent loads baseUrl rest _ hatId habsent]
          unfold preloadStep
          simp only [hq2, ne_eq, hres, not_false_eq_true, if_true, hload]
          simpa [hq1] using lookupKey_setKey_self acc.1.prefabs hatId _
        · intro e hres hload
          rw [List.foldl_cons]
          constructor
          · rw [preload_fold_lookup_absent loads baseUrl rest _ hatId habsent]
            unfold preloadStep
            simp [hq2, hres, hload]
          · obtain ⟨t, ht⟩ :=
              preload_fold_logs_prefix loads baseUrl rest (preloadStep loads baseUrl acc q)
            rw [ht]
            have hstep : (preloadStep loads baseUrl acc q).2 = acc.2 ++ [e] := by
              unfold preloadStep
              simp [hq2, hres, hload]
            rw [hstep]
            simp
      · -- the entry lies in the tail of the catalog
        have hq1 : q.1 ≠ hatId := by
          intro hcontra
          apply hqrest
          rw [hcontra]
          exact List.mem_map_of_mem Prod.fst htail
        have hstep := preloadStep_lookup_ne loads baseUrl acc q hatId hq1
        have ihres := ih (preloadStep loads baseUrl acc q) hatId rec htail hndrest
        refine ⟨?_, ?_, ?_⟩
        · intro hres
          rw [List.foldl_cons, ihres.1 hres, hstep]
        · intro assets hres hload
          rw [List.foldl_cons]
          exact ihres.2.1 assets hres hload
        · intro e hres hload
          rw [List.foldl_cons]
          exact ⟨by rw [(ihres.2.2 e hres hload).1, hstep],
            (ihres.2.2 e hres hload).2⟩

/-- A successful `find?` returns the first element satisfying the
predicate: the witness decomposition of the list. -/
theorem find?_eq_some_first {α : Type} (p : α → Bool) :
    ∀ (l : List α) (a : α), l.find? p = some a →
      p a = true ∧ ∃ l1 l2, l = l1 ++ a :: l2 ∧ ∀ b ∈ l1, p b = false := by
  intro l
  induction l with
  | nil => intro a h; simp at h
  | cons x xs ih =>
      intro a h
      by_cases hx : p x
      · rw [List.find?_cons_of_pos _ hx] at h
        cases h
        exact ⟨hx, [], xs, rfl, by simp⟩
      · rw [List.find?_cons_of_neg _ hx] at h
        obtain ⟨hpa, l1, l2, hdecomp, hfirst⟩ := ih a h
        refine ⟨hpa, x :: l1, l2, by rw [hdecomp]; rfl, ?_⟩
        intro b hb
        rcases List.mem_cons.mp hb with rfl | hb
        · simpa using hx
        · exact hfirst b hb

/-! ### Menu builder lemmas -/

theorem menuEntryActors_cons (q : String × HatDescriptor) (rest : HatDatabase)
    (y : Rat) :
    menuEntryActors (q :: rest) y =
      (buttonActor q.1 y :: labelActor q.2.displayName y ::
        (menuEntryActors rest (y + 0.5)).1,
       (menuEntryActors rest (y + 0.5)).2) := rfl

theorem menuEntryActors_length (db : HatDatabase) :
    ∀ y : Rat, (menuEntryActors db y).1.length = 2 * db.length := by
  induction db with
  | nil => intro y; rfl
  | cons q rest ih =>
      intro y
      rw [menuEntryActors_cons]
      simp only [List.length_cons, ih (y + 0.5), List.length_cons]
      omega

theorem menuEntryActors_snd (db : HatDatabase) :
    ∀ y : Rat, (menuEntryActors db y).2 = y + 0.5 * db.length := by
  induction db with
  | nil => intro y; simp [menuEntryActors]
  | cons q rest ih =>
      intro y
      rw [menuEntryActors_cons]
      show (menuEntryActors rest (y + 0.5)).2 = _
      rw [ih (y + 0.5)]
      simp only [List.length_cons]
      push_cast
      ring

theorem menuEntryActors_getElem? (db : HatDatabase) :
    ∀ (y : Rat) (i : Nat) (hi : i < db.length),
      (menuEntryActors db y).1[2 * i]? =
        some (buttonActor (db.get ⟨i, hi⟩).1 (y + 0.5 * i)) ∧
      (menuEntryActors db y).1[2 * i + 1]? =
        some (labelActor (db.get ⟨i, hi⟩).2.displayName (y + 0.5 * i)) := by
  induction db with
  | nil => intro y i hi; exact absurd hi (Nat.not_lt_zero i)
  | cons q rest ih =>
      intro y i hi
      rw [menuEntryActors_cons]
      cases i with
      | zero =>
          have h0 : y + 0.5 * ((0 : Nat) : Rat) = y := by push_cast; ring
          refine ⟨?_, ?_⟩
          · rw [h0]; simp
          · rw [h0]; simp
      | succ i =>
          have hi' : i < rest.length := Nat.lt_of_succ_lt_succ hi
          have harith : (y + 0.5) + 0.5 * (i : Rat) =
              y + 0.5 * ((i + 1 : Nat) : Rat) := by push_cast; ring
          have h1 := (ih (y + 0.5) i hi').1
          have h2 := (ih (y + 0.5) i hi').2
          rw [harith] at h1 h2
          refine ⟨?_, ?_⟩
          · have hidx : 2 * (i + 1) = (2 * i + 1) + 1 := by omega
            rw [hidx, List.getElem?_cons_succ, List.getElem?_cons_succ]
            exact h1
          · have hidx : 2 * (i + 1) + 1 = ((2 * i + 1) + 1) + 1 := by omega
            rw [hidx, List.getElem?_cons_succ, List.getElem?_cons_succ]
            exact h2

theorem menuEntryActors_parent (db : HatDatabase) :
    ∀ (y : Rat) (a : MenuActor), a ∈ (menuEntryActors db y).1 →
      a.parentId = some menuContainerId := by
  induction db with
  | nil => intro y a ha; exact absurd ha (List.not_mem_nil a)
  | cons q rest ih =>
      intro y a ha
      rw [menuEntryActors_cons] at ha
      rcases List.mem_cons.mp ha with rfl | ha
      · rfl
      · rcases List.mem_cons.mp ha with rfl | ha
        · rfl
        · exact ih (y + 0.5) a ha

/-! ### Claim theorems -/

/-- C1 counterexample: with catalog `sampleDb` and an empty prefab table
(the cap's load failed, so `cap` has no `PrefabTable` entry although its
descriptor's `resourceName` is non-empty), selecting the cap is not the
claimed silent no-op: `wearHat` raises a `TypeError` to the caller, because
line 195 of `app.ts` reads `this.prefabs[hatId].id` without a guard. -/
theorem claim1_counterexample :
    (wearHat sampleDb emptyState "cap" "u1").2 =
      some "TypeError: Cannot read property 'id' of undefined" := by decide

/-- C1 (amended): for every user `u` and `hatId` whose catalog descriptor
has a non-empty `resourceName` but no usable `PrefabTable` entry (absent, or
recorded as `undefined`), `wearHat(hatId, u)` creates no hat instance (the
instance counter is unchanged) and records no `AttachmentTable` entry for
`u`, but it is not silent: after unconditionally destroying and removing
`u`'s existing hat, reading `.id` of the missing prefab throws a `TypeError`
that propagates to the caller. -/
theorem claim1_missing_prefab_not_silent (db : HatDatabase) (s : AppState)
    (hatId u : String) (d : HatDescriptor)
    (hdb : lookupKey db hatId = some d) (hres : d.resourceName ≠ "")
    (hpre : (lookupKey s.prefabs hatId).getD none = none) :
    wearHat db s hatId u =
      (destroyAndRemove s u,
       some "TypeError: Cannot read property 'id' of undefined") ∧
    lookupKey (wearHat db s hatId u).1.attachedHats u = none ∧
    (wearHat db s hatId u).1.nextInstanceId = s.nextInstanceId := by
  have h := wearHat_of_prefab_unusable db s hatId u d hdb hres hpre
  refine ⟨h, ?_, ?_⟩
  · rw [h]
    show lookupKey (destroyAndRemove s u).attachedHats u = none
    rw [destroyAndRemove_attachedHats]
    exact lookupKey_eraseKey_self _ _
  · rw [h]
    exact destroyAndRemove_nextInstanceId s u

/-- C1 witness: the amended claim instantiated at `sampleDb`, `emptyState`,
hat `cap`, user `u1`. -/
theorem claim1_witness :
    wearHat sampleDb emptyState "cap" "u1" =
      (destroyAndRemove emptyState "u1",
       some "TypeError: Cannot read property 'id' of undefined") ∧
    lookupKey (wearHat sampleDb emptyState "cap" "u1").1.attachedHats "u1" = none ∧
    (wearHat sampleDb emptyState "cap" "u1").1.nextInstanceId =
      emptyState.nextInstanceId :=
  claim1_missing_prefab_not_silent sampleDb emptyState "cap" "u1" capDescriptor
    rfl (by decide) rfl

/-- C3: calling `userLeft(u)` when `u` has no `AttachmentTable` entry is a
no-op (state unchanged, no exception — the model of `userLeft` is total);
calling it twice in a row equals calling it once; and in every case the
entry for `u` is removed unconditionally. -/
theorem claim3_userLeft_noop_idempotent (s : AppState) (u : String) :
    (lookupKey s.attachedHats u = none → userLeft s u = s) ∧
    userLeft (userLeft s u) u = userLeft s u ∧
    lookupKey (userLeft s u).attachedHats u = none := by
  have hafter : lookupKey (userLeft s u).attachedHats u = none := by
    show lookupKey (destroyAndRemove s u).attachedHats u = none
    rw [destroyAndRemove_attachedHats]
    exact lookupKey_eraseKey_self _ _
  exact ⟨fun h => destroyAndRemove_of_lookupKey_none s u h,
    destroyAndRemove_of_lookupKey_none (userLeft s u) u hafter, hafter⟩

/-- C3 witness: the claim instantiated at `emptyState`, user `u1` (who has
no entry), with the no-op hypothesis discharged by computation. -/
theorem claim3_witness :
    userLeft emptyState "u1" = emptyState ∧
    userLeft (userLeft emptyState "u1") "u1" = userLeft emptyState "u1" ∧
    lookupKey (userLeft emptyState "u1").attachedHats "u1" = none :=
  ⟨(claim3_userLeft_noop_idempotent emptyState "u1").1 rfl,
   (claim3_userLeft_noop_idempotent emptyState "u1").2.1,
   (claim3_userLeft_noop_idempotent emptyState "u1").2.2⟩

/-- C4: for a user wearing hat instance `x`, selecting a catalog entry with
empty `resourceName` destroys `x`, returns normally right after the catalog
lookup (no throw), leaves no `AttachmentTable` entry for the user and
creates no new instance (the instance counter is unchanged). -/
theorem claim4_none_selection_clears (db : HatDatabase) (s : AppState)
    (hatId u : String) (d : HatDescriptor) (x : HatActor)
    (hdb : lookupKey db hatId = some d) (hres : d.resourceName = "")
    (hworn : lookupKey s.attachedHats u = some x) :
    wearHat db s hatId u = (destroyAndRemove s u, none) ∧
    x ∈ (wearHat db s hatId u).1.destroyed ∧
    lookupKey (wearHat db s hatId u).1.attachedHats u = none ∧
    (wearHat db s hatId u).1.nextInstanceId = s.nextInstanceId := by
  have h := wearHat_of_resource_empty db s hatId u d hdb hres
  refine ⟨h, ?_, ?_, ?_⟩
  · rw [h]
    show x ∈ (destroyAndRemove s u).destroyed
    rw [destroyAndRemove_destroyed_of_some s u x hworn]
    exact List.mem_cons_self x _
  · rw [h]
    show lookupKey (destroyAndRemove s u).attachedHats u = none
    rw [destroyAndRemove_attachedHats]
    exact lookupKey_eraseKey_self _ _
  · rw [h]
    exact destroyAndRemove_nextInstanceId s u

/-- C4 witness: user `u1` wears `sampleWornActor` in `wornState`; selecting
the `none` entry destroys it and leaves no entry. -/
theorem claim4_witness :
    wearHat sampleDb wornState "none" "u1" = (destroyAndRemove wornState "u1", none) ∧
    sampleWornActor ∈ (wearHat sampleDb wornState "none" "u1").1.destroyed ∧
    lookupKey (wearHat sampleDb wornState "none" "u1").1.attachedHats "u1" = none ∧
    (wearHat sampleDb wornState "none" "u1").1.nextInstanceId =
      wornState.nextInstanceId :=
  claim4_none_selection_clears sampleDb wornState "none" "u1" noneDescriptor
    sampleWornActor rfl rfl rfl

/-- C7: when the descriptor is present with non-empty `resourceName` and the
prefab is in the table, `wearHat` returns normally and records, keyed by the
user, a fresh instance of that prefab whose local position is the
descriptor's position, whose local rotation is the quaternion built by
`FromEulerAngles` from the descriptor's Euler angles each multiplied by
`DegreesToRadians` (order XYZ), whose local scale is the descriptor's scale,
attached to the user's `head` attachment point. -/
theorem claim7_wearHat_attaches (db : HatDatabase) (s : AppState)
    (hatId u : String) (d : HatDescriptor) (p : Asset)
    (hdb : lookupKey db hatId = some d) (hres : d.resourceName ≠ "")
    (hpre : lookupKey s.prefabs hatId = some (some p)) :
    (wearHat db s hatId u).2 = none ∧
    lookupKey (wearHat db s hatId u).1.attachedHats u =
      some { instanceId := s.nextInstanceId
             prefabId := p.id
             transform :=
               { position := d.position
                 rotation := Quaternion.fromEulerAngles
                   (degTimesDegreesToRadians d.rotation.x)
                   (degTimesDegreesToRadians d.rotation.y)
                   (degTimesDegreesToRadians d.rotation.z)
                 scale := d.scale }
             attachment := { attachPoint := "head", userId := u } } := by
  have h := wearHat_of_prefab_some db s hatId u d p hdb hres hpre
  constructor
  · rw [h]
  · rw [h]
    show lookupKey (setKey (destroyAndRemove s u).attachedHats u _) u = _
    rw [lookupKey_setKey_self, destroyAndRemove_nextInstanceId]

/-- C7 witness: from `loadedState` (cap prefab loaded, nobody wearing
anything), user `u1` selecting the cap gets exactly `sampleWornActor`. -/
theorem claim7_witness :
    (wearHat sampleDb loadedState "cap" "u1").2 = none ∧
    lookupKey (wearHat sampleDb loadedState "cap" "u1").1.attachedHats "u1" =
      some sampleWornActor :=
  ⟨(claim7_wearHat_attaches sampleDb loadedState "cap" "u1" capDescriptor capAsset
      rfl (by decide) rfl).1,
   (claim7_wearHat_attaches sampleDb loadedState "cap" "u1" capDescriptor capAsset
      rfl (by decide) rfl).2⟩

/-- C9 (implicit): calling `wearHat` with a `hatId` absent from the catalog
raises a `TypeError` (the `hatRecord.resourceName` read on the `undefined`
lookup result), and only after the user's existing hat has been destroyed
and its entry removed — the operation is not atomic on error and leaves the
user wearing nothing. -/
theorem claim9_unknown_hat_throws (db : HatDatabase) (s : AppState)
    (hatId u : String) (h : lookupKey db hatId = none) :
    wearHat db s hatId u =
      (destroyAndRemove s u,
       some "TypeError: Cannot read property 'resourceName' of undefined") ∧
    lookupKey (wearHat db s hatId u).1.attachedHats u = none ∧
    (∀ a, lookupKey s.attachedHats u = some a →
      a ∈ (wearHat db s hatId u).1.destroyed) := by
  have hw := wearHat_of_db_none db s hatId u h
  refine ⟨hw, ?_, ?_⟩
  · rw [hw]
    show lookupKey (destroyAndRemove s u).attachedHats u = none
    rw [destroyAndRemove_attachedHats]
    exact lookupKey_eraseKey_self _ _
  · intro a ha
    rw [hw]
    show a ∈ (destroyAndRemove s u).destroyed
    rw [destroyAndRemove_destroyed_of_some s u a ha]
    exact List.mem_cons_self a _

/-- C9 witness: in `wornState`, selecting the unknown id `bogus` throws the
`TypeError` after destroying `u1`'s current hat. -/
theorem claim9_witness :
    wearHat sampleDb wornState "bogus" "u1" =
      (destroyAndRemove wornState "u1",
       some "TypeError: Cannot read property 'resourceName' of undefined") ∧
    lookupKey (wearHat sampleDb wornState "bogus" "u1").1.attachedHats "u1" = none ∧
    sampleWornActor ∈ (wearHat sampleDb wornState "bogus" "u1").1.destroyed :=
  ⟨(claim9_unknown_hat_throws sampleDb wornState "bogus" "u1" rfl).1,
   (claim9_unknown_hat_throws sampleDb wornState "bogus" "u1" rfl).2.1,
   (claim9_unknown_hat_throws sampleDb wornState "bogus" "u1" rfl).2.2
     sampleWornActor rfl⟩

/-- C10 (implicit frame property): `wearHat(hatId, u)` and `userLeft(u)`
leave the `AttachmentTable` entry of every other user `v ≠ u` unchanged, and
neither operation mutates the `PrefabTable`.  (The `HatCatalog` is a
module-level constant the operations receive immutably in this model; no
write to it exists in either function.) -/
theorem claim10_frame (db : HatDatabase) (s : AppState) (hatId u v : String)
    (hvu : v ≠ u) :
    lookupKey (wearHat db s hatId u).1.attachedHats v = lookupKey s.attachedHats v ∧
    lookupKey (userLeft s u).attachedHats v = lookupKey s.attachedHats v ∧
    (wearHat db s hatId u).1.prefabs = s.prefabs ∧
    (userLeft s u).prefabs = s.prefabs := by
  refine ⟨?_, ?_, wearHat_prefabs db s hatId u, destroyAndRemove_prefabs s u⟩
  · rcases wearHat_attachedHats_cases db s hatId u with h | ⟨a, h⟩
    · rw [h]
      exact lookupKey_eraseKey_ne _ _ _ hvu
    · rw [h, lookupKey_setKey_ne _ _ _ _ hvu]
      exact lookupKey_eraseKey_ne _ _ _ hvu
  · show lookupKey (destroyAndRemove s u).attachedHats v = _
    rw [destroyAndRemove_attachedHats]
    exact lookupKey_eraseKey_ne _ _ _ hvu

/-- C10 witness: in `wornState`, `u1`'s re-selection of the cap and
departure leave `u2`'s (absent) entry and the prefab table unchanged. -/
theorem claim10_witness :
    lookupKey (wearHat sampleDb wornState "cap" "u1").1.attachedHats "u2" =
      lookupKey wornState.attachedHats "u2" ∧
    lookupKey (userLeft wornState "u1").attachedHats "u2" =
      lookupKey wornState.attachedHats "u2" ∧
    (wearHat sampleDb wornState "cap" "u1").1.prefabs = wornState.prefabs ∧
    (userLeft wornState "u1").prefabs = wornState.prefabs :=
  claim10_frame sampleDb wornState "cap" "u1" "u2" (by decide)

/-- C2: for every finite sequence of `wearHat`/`userLeft` events for a
single user `u` (started from any state where `u` has at most one entry),
the `AttachmentTable` holds at most one instance for `u` at every point;
any instance attached at an earlier point is, at any later point, either
still the current one or already destroyed; and the destroy-and-remove of
the existing entry at the start of `wearHat` happens unconditionally — for
every `hatId`, including the same hat or the `none` entry — and on
`userLeft` too. -/
theorem claim2_at_most_one_hat (db : HatDatabase) (u : String) (s : AppState)
    (hcount : countKey s.attachedHats u ≤ 1) :
    (∀ evs, countKey (runEvents db u s evs).attachedHats u ≤ 1) ∧
    (∀ evs1 evs2 a,
      lookupKey (runEvents db u s evs1).attachedHats u = some a →
      lookupKey (runEvents db u s (evs1 ++ evs2)).attachedHats u = some a ∨
        a ∈ (runEvents db u s (evs1 ++ evs2)).destroyed) ∧
    (∀ hatId a, lookupKey s.attachedHats u = some a →
      a ∈ (wearHat db s hatId u).1.destroyed ∧ a ∈ (userLeft s u).destroyed) := by
  refine ⟨fun evs => runEvents_countKey_le_one db u evs s hcount, ?_, ?_⟩
  · intro evs1 evs2 a ha
    rw [runEvents_append]
    exact runEvents_current_or_destroyed db u evs2 (runEvents db u s evs1) a
      (Or.inl ha)
  · intro hatId a ha
    exact ⟨stepEvent_destroys_current db u s (.wear hatId) a ha,
      stepEvent_destroys_current db u s .leave a ha⟩

/-- C2 witness: starting from `wornState` (one entry for `u1`), the event
sequence "re-select cap, then leave" keeps at most one entry, the actor
attached after the first event is current-or-destroyed after the second,
and the initial hat is destroyed both by a `wearHat` and by a `userLeft`. -/
theorem claim2_witness :
    countKey (runEvents sampleDb "u1" wornState
      [UserEvent.wear "cap", UserEvent.leave]).attachedHats "u1" ≤ 1 ∧
    (lookupKey (runEvents sampleDb "u1" wornState
        ([UserEvent.wear "cap"] ++ [UserEvent.leave])).attachedHats "u1" =
        some rewornActor ∨
      rewornActor ∈ (runEvents sampleDb "u1" wornState
        ([UserEvent.wear "cap"] ++ [UserEvent.leave])).destroyed) ∧
    sampleWornActor ∈ (wearHat sampleDb wornState "cap" "u1").1.destroyed ∧
    sampleWornActor ∈ (userLeft wornState "u1").destroyed := by
  have h := claim2_at_most_one_hat sampleDb "u1" wornState (by decide)
  exact ⟨h.1 [UserEvent.wear "cap", UserEvent.leave],
    h.2.1 [UserEvent.wear "cap"] [UserEvent.leave] rewornActor rfl,
    (h.2.2 "cap" sampleWornActor rfl).1,
    (h.2.2 "cap" sampleWornActor rfl).2⟩

/-- C5: during preload, every catalog entry with non-empty `resourceName`
gets a load-chain promise for its base-URL-relative path; on fulfilled load
the first prefab-bearing asset of the result set is stored under the hat id;
on rejected load the error is logged and the table entry is left as it was
(absent when starting from an empty table), without affecting the other
entries (the theorem holds for every entry of the same run simultaneously);
entries without `resourceName` get `Promise.resolve()` (settled immediately)
and no table write. -/
theorem claim5_preload (loads : String → LoadOutcome) (baseUrl : String)
    (db : HatDatabase) (s : AppState) (hatId : String) (rec : HatDescriptor)
    (hmem : (hatId, rec) ∈ db) (hnd : (db.map Prod.fst).Nodup) :
    (rec.resourceName ≠ "" →
      HatLoadPromise.loadChain (loadPath baseUrl rec.resourceName) ∈
        preloadPromises baseUrl db) ∧
    (rec.resourceName = "" →
      hatLoadPromiseOf baseUrl (hatId, rec) = HatLoadPromise.resolvedNow ∧
      (∀ settled, (hatLoadPromiseOf baseUrl (hatId, rec)).isSettled settled = true) ∧
      lookupKey (preloadHats loads baseUrl db s).1.prefabs hatId =
        lookupKey s.prefabs hatId) ∧
    (∀ assets a, rec.resourceName ≠ "" →
      loads (loadPath baseUrl rec.resourceName) = .ok assets →
      assets.find? (fun x => x.hasPrefab) = some a →
      lookupKey (preloadHats loads baseUrl db s).1.prefabs hatId = some (some a) ∧
      a.hasPrefab = true ∧
      ∃ l1 l2, assets = l1 ++ a :: l2 ∧ ∀ b ∈ l1, b.hasPrefab = false) ∧
    (∀ e, rec.resourceName ≠ "" →
      loads (loadPath baseUrl rec.resourceName) = .err e →
      lookupKey (preloadHats loads baseUrl db s).1.prefabs hatId =
        lookupKey s.prefabs hatId ∧
      e ∈ (preloadHats loads baseUrl db s).2) := by
  have hfold := preload_fold_entry loads baseUrl db (s, []) hatId rec hmem hnd
  refine ⟨?_, ?_, ?_, ?_⟩
  · intro hres
    have hpr : hatLoadPromiseOf baseUrl (hatId, rec) =
        HatLoadPromise.loadChain (loadPath baseUrl rec.resourceName) := by
      unfold hatLoadPromiseOf
      simp [hres]
    rw [← hpr]
    exact List.mem_map_of_mem _ hmem
  · intro hres
    refine ⟨by unfold hatLoadPromiseOf; simp [hres], ?_, ?_⟩
    · intro settled
      unfold hatLoadPromiseOf
      simp [hres, HatLoadPromise.isSettled]
    · exact hfold.1 hres
  · intro assets a hres hload hfind
    obtain ⟨hpa, l1, l2, hdec, hfirst⟩ := find?_eq_some_first _ assets a hfind
    have h1 : lookupKey (preloadHats loads baseUrl db s).1.prefabs hatId =
        some (assets.find? (fun x => x.hasPrefab)) := hfold.2.1 assets hres hload
    rw [hfind] at h1
    exact ⟨h1, hpa, l1, l2, hdec, hfirst⟩
  · intro e hres hload
    exact hfold.2.2 e hres hload

/-- C5 witness: with `sampleLoads` (the cap path fulfills with three assets,
the second being the first prefab-bearing one), preloading `sampleDb` stores
exactly that asset under `cap`. -/
theorem claim5_witness :
    lookupKey (preloadHats sampleLoads "http://x" sampleDb emptyState).1.prefabs
      "cap" = some (some ⟨7, true⟩) ∧
    (⟨7, true⟩ : Asset).hasPrefab = true ∧
    (∃ l1 l2,
      [(⟨3, false⟩ : Asset), ⟨7, true⟩, ⟨9, true⟩] = l1 ++ (⟨7, true⟩ : Asset) :: l2 ∧
      ∀ b ∈ l1, b.hasPrefab = false) := by
  have h := (claim5_preload sampleLoads "http://x" sampleDb emptyState "cap"
    capDescriptor (List.mem_cons_of_mem _ (List.mem_cons_self _ _))
    (by decide)).2.2.1
    [⟨3, false⟩, ⟨7, true⟩, ⟨9, true⟩] ⟨7, true⟩ (by decide) rfl rfl
  exact ⟨h.1, h.2.1, h.2.2⟩

/-- C8: the `Promise.all` returned by `preloadHats` fulfills exactly when
every per-hat load (every entry with non-empty `resourceName`) has settled —
each element promise carries a `.catch`, so none rejects early — and
`started` reaches the menu-shown phase exactly when that join has
completed, so no clickable button exists while a prefab load is pending. -/
theorem claim8_menu_after_preload (settled : String → Bool) (baseUrl : String)
    (db : HatDatabase) :
    (preloadAllSettled settled baseUrl db = true ↔
      ∀ entry ∈ db, entry.2.resourceName ≠ "" →
        settled (loadPath baseUrl entry.2.resourceName) = true) ∧
    (startedPhase settled baseUrl db = .menuShown ↔
      preloadAllSettled settled baseUrl db = true) := by
  have hall : preloadAllSettled settled baseUrl db = true ↔
      ∀ entry ∈ db, entry.2.resourceName ≠ "" →
        settled (loadPath baseUrl entry.2.resourceName) = true := by
    unfold preloadAllSettled preloadPromises
    rw [List.all_eq_true]
    constructor
    · intro h entry hmem hres
      have := h (hatLoadPromiseOf baseUrl entry) (List.mem_map_of_mem _ hmem)
      unfold hatLoadPromiseOf at this
      simpa [hres, HatLoadPromise.isSettled] using this
    · intro h p hp
      rcases List.mem_map.mp hp with ⟨entry, hmem, rfl⟩
      unfold hatLoadPromiseOf
      by_cases hres : entry.2.resourceName = ""
      · simp [hres, HatLoadPromise.isSettled]
      · simpa [hres, HatLoadPromise.isSettled] using h entry hmem hres
  refine ⟨hall, ?_⟩
  unfold startedPhase
  by_cases hc : preloadAllSettled settled baseUrl db = true
  · simp [hc]
  · simp [hc]

/-- C8 witness: with every load settled, the join is complete and the menu
phase is reached for `sampleDb`. -/
theorem claim8_witness :
    preloadAllSettled (fun _ => true) "http://x" sampleDb = true ∧
    startedPhase (fun _ => true) "http://x" sampleDb = StartupPhase.menuShown := by
  have h := claim8_menu_after_preload (fun _ => true) "http://x" sampleDb
  have hs : preloadAllSettled (fun _ => true) "http://x" sampleDb = true :=
    h.1.mpr (fun entry _ _ => rfl)
  exact ⟨hs, h.2.mpr hs⟩

/-- C6: for a catalog with N entries, `showHatMenu` creates exactly 2N+2
actors — the container first, then per catalog entry (in declared key
order) one button and one label at index 1+2i and 2+2i, the label showing
the entry's `displayName`, each entry at vertical offset 0.3 + 0.5·i
(strictly increasing, fixed step 0.5), and exactly one title label last, at
height 0.3 + 0.5·N + 0.25, vertically above every entry; every actor except
the container is parented to the container. -/
theorem claim6_menu_layout (db : HatDatabase) :
    (showHatMenu db).length = 2 * db.length + 2 ∧
    (showHatMenu db).head? = some menuContainer ∧
    (∀ (i : Nat) (hi : i < db.length),
      (showHatMenu db)[1 + 2 * i]? =
        some (buttonActor (db.get ⟨i, hi⟩).1 (0.3 + 0.5 * i)) ∧
      (showHatMenu db)[2 + 2 * i]? =
        some (labelActor (db.get ⟨i, hi⟩).2.displayName (0.3 + 0.5 * i))) ∧
    (showHatMenu db)[2 * db.length + 1]? =
      some (titleLabelActor (0.3 + 0.5 * db.length)) ∧
    (∀ a ∈ (showHatMenu db).tail, a.parentId = some menuContainerId) ∧
    (∀ (i j : Nat) (hi : i < db.length) (hj : j < db.length), i < j →
      (buttonActor (db.get ⟨i, hi⟩).1 (0.3 + 0.5 * i)).position.y <
        (buttonActor (db.get ⟨j, hj⟩).1 (0.3 + 0.5 * j)).position.y) ∧
    (∀ (i : Nat) (hi : i < db.length),
      (buttonActor (db.get ⟨i, hi⟩).1 (0.3 + 0.5 * i)).position.y <
        (titleLabelActor (0.3 + 0.5 * db.length)).position.y) := by
  have hmenu : showHatMenu db =
      menuContainer :: ((menuEntryActors db 0.3).1 ++
        [titleLabelActor (menuEntryActors db 0.3).2]) := rfl
  refine ⟨?_, ?_, ?_, ?_, ?_, ?_, ?_⟩
  · rw [hmenu]
    simp only [List.length_cons, List.length_append, List.length_singleton,
      List.length_nil, menuEntryActors_length db 0.3]
  · rw [hmenu]
    rfl
  · intro i hi
    have hb := (menuEntryActors_getElem? db 0.3 i hi).1
    have hl := (menuEntryActors_getElem? db 0.3 i hi).2
    constructor
    · rw [hmenu]
      have hidx : 1 + 2 * i = (2 * i) + 1 := by omega
      rw [hidx, List.getElem?_cons_succ,
        List.getElem?_append_left (by rw [menuEntryActors_length db 0.3]; omega)]
      exact hb
    · rw [hmenu]
      have hidx : 2 + 2 * i = ((2 * i) + 1) + 1 := by omega
      rw [hidx, List.getElem?_cons_succ,
        List.getElem?_append_left (by rw [menuEntryActors_length db 0.3]; omega)]
      exact hl
  · rw [hmenu, List.getElem?_cons_succ,
      show 2 * db.length = (menuEntryActors db 0.3).1.length from
        (menuEntryActors_length db 0.3).symm,
      List.getElem?_concat_length, menuEntryActors_snd db 0.3]
  · rw [hmenu]
    intro a ha
    rcases List.mem_append.mp ha with ha | ha
    · exact menuEntryActors_parent db 0.3 a ha
    · rw [List.mem_singleton.mp ha]
      rfl
  · intro i j hi hj hij
    show (0.3 : Rat) + 0.5 * i < 0.3 + 0.5 * j
    have hc : (i : Rat) < j := by exact_mod_cast hij
    linarith
  · intro i hi
    show (0.3 : Rat) + 0.5 * i < (0.3 + 0.5 * db.length) + 0.25
    have hc : (i : Rat) < db.length := by exact_mod_cast hi
    linarith

/-- C6 witness: the layout at the concrete two-entry catalog `sampleDb` —
4+2 actors, the first button is the `none` entry at offset 0.3, and every
entry sits below the title. -/
theorem claim6_witness :
    (showHatMenu sampleDb).length = 2 * sampleDb.length + 2 ∧
    (showHatMenu sampleDb)[1 + 2 * 0]? =
      some (buttonActor "none" (0.3 + 0.5 * ((0 : Nat) : Rat))) ∧
    (buttonActor "none" (0.3 + 0.5 * ((0 : Nat) : Rat))).position.y <
      (titleLabelActor (0.3 + 0.5 * (sampleDb.length : Rat))).position.y := by
  refine ⟨(claim6_menu_layout sampleDb).1, ?_, ?_⟩
  · exact ((claim6_menu_layout sampleDb).2.2.1 0 (by decide)).1
  · exact (claim6_menu_layout sampleDb).2.2.2.2.2.2 0 (by decide)

end WearAHat
